import Mathlib

/-!
Verification of the PAA (People Also Ask) tree builder.

The source consists of three JavaScript files:
* the core module (`searchWithDepth`, `buildQuestionTree`, `cleanQuestionData`),
* `serpapi.js` (the upstream search client `googleSearch` / `fetchRelatedQuestions`),
* `cli.js` (the command-line entry point with its depth validation).

The embedding below models raw upstream question objects as association lists
of string fields (JavaScript objects with string values), the two upstream
calls as oracle functions returning `Except String RawResult` (a rejected
promise carries its error message), and instruments `buildQuestionTree` /
`searchWithDepth` with a trace of the continuation tokens passed to
`fetchRelatedQuestions`, so that "no expansion call is made" is a statement
about the trace.
-/

namespace PAA

/-- A raw upstream question object: a JavaScript object whose fields we model
as an association list from field name to string value.  Upstream fields of
interest are `question`, `next_page_token` and `serpapi_link`; all others are
pass-through data. -/
abbrev RawQuestion := List (String × String)

/-- A raw upstream response: `{ related_questions?: [...] }`.  `none` models
an absent (or `null`/`undefined`) `related_questions` field. -/
structure RawResult where
  related_questions : Option (List RawQuestion)
deriving Repr, DecidableEq

/-- An output tree node, as emitted by `buildQuestionTree`:
`{ ...cleanQuestionData(q), depth, children }`, plus `error` in the catch
branch.  `fields` carries the cleaned upstream fields; `error = none` models
the absence of the `error` key. -/
structure QNode where
  fields : List (String × String)
  depth : Int
  children : List QNode
  error : Option String
deriving Repr

/-- The top-level output `{ query, questions }` of `searchWithDepth`. -/
structure SearchResult where
  query : String
  questions : List QNode
deriving Repr

/-- An upstream call oracle: takes the argument (query string or continuation
token) and the `noCache` flag, returns the parsed JSON on fulfilment or the
error message on rejection. -/
abbrev Oracle := String → Bool → Except String RawResult

/-- `cleanQuestionData(question)`: destructures away `next_page_token` and
`serpapi_link` and keeps every other field of the object. -/
def cleanQuestionData (question : RawQuestion) : RawQuestion :=
  question.filter (fun kv => !(kv.1 == "next_page_token" || kv.1 == "serpapi_link"))

/-- `buildQuestionTree(questions, maxDepth, currentDepth, noCache)`, with the
`fetchRelatedQuestions` client abstracted as the oracle `fetchRelated`.
Returns the array of nodes together with the trace of continuation tokens
passed to `fetchRelatedQuestions`, in call order.

The JavaScript truthiness test `!question.next_page_token` is modelled as:
the field is absent, or its (string) value is empty.  The guard
`relatedData.related_questions && relatedData.related_questions.length > 0`
is modelled by the match on the optional field plus the length test. -/
def buildQuestionTree (fetchRelated : Oracle) (questions : List RawQuestion)
    (maxDepth currentDepth : Int) (noCache : Bool) :
    List QNode × List String :=
  if currentDepth ≥ maxDepth then
    (questions.map (fun q => ⟨cleanQuestionData q, currentDepth, [], none⟩), [])
  else
    match questions with
    | [] => ([], [])
    | question :: restQuestions =>
      let tail := buildQuestionTree fetchRelated restQuestions maxDepth currentDepth noCache
      match question.lookup "next_page_token" with
      | none =>
        (⟨cleanQuestionData question, currentDepth, [], none⟩ :: tail.1, tail.2)
      | some tok =>
        if tok = "" then
          (⟨cleanQuestionData question, currentDepth, [], none⟩ :: tail.1, tail.2)
        else
          match fetchRelated tok noCache with
          | Except.error msg =>
            (⟨cleanQuestionData question, currentDepth, [], some msg⟩ :: tail.1,
              tok :: tail.2)
          | Except.ok relatedData =>
            match relatedData.related_questions with
            | none =>
              (⟨cleanQuestionData question, currentDepth, [], none⟩ :: tail.1,
                tok :: tail.2)
            | some qs =>
              if 0 < qs.length then
                let sub := buildQuestionTree fetchRelated qs maxDepth (currentDepth + 1) noCache
                (⟨cleanQuestionData question, currentDepth, sub.1, none⟩ :: tail.1,
                  tok :: (sub.2 ++ tail.2))
              else
                (⟨cleanQuestionData question, currentDepth, [], none⟩ :: tail.1,
                  tok :: tail.2)
termination_by ((maxDepth - currentDepth).toNat, questions.length)
decreasing_by
  · apply Prod.Lex.right
    simp
  · apply Prod.Lex.left
    omega

/-- `searchWithDepth(query, maxDepth, noCache)`, with the seed-search client
`googleSearch` and the expansion client `fetchRelatedQuestions` abstracted as
oracles.  The second component of a successful result is the trace of
continuation tokens passed to `fetchRelatedQuestions` (the seed search itself
is the `googleSearch` application). -/
def searchWithDepth (googleSearch fetchRelated : Oracle) (query : String)
    (maxDepth : Int) (noCache : Bool) :
    Except String (SearchResult × List String) :=
  match googleSearch query noCache with
  | Except.error e => Except.error e
  | Except.ok initialResults =>
    match initialResults.related_questions with
    | none => Except.ok (⟨query, []⟩, [])
    | some questions =>
      if questions.length = 0 then
        Except.ok (⟨query, []⟩, [])
      else
        let r := buildQuestionTree fetchRelated questions maxDepth 1 noCache
        Except.ok (⟨query, r.1⟩, r.2)

/-- JavaScript whitespace accepted by `parseInt` (the ASCII portion). -/
def isJsSpace (c : Char) : Bool :=
  c == ' ' || c == '\t' || c == '\n' || c == '\r' || c == '\u000B' || c == '\u000C'

/-- The value of `c` as a digit in the given radix, if it is one. -/
def digitValue (radix : Nat) (c : Char) : Option Nat :=
  let v :=
    if '0' ≤ c ∧ c ≤ '9' then some (c.toNat - '0'.toNat)
    else if 'a' ≤ c ∧ c ≤ 'f' then some (c.toNat - 'a'.toNat + 10)
    else if 'A' ≤ c ∧ c ≤ 'F' then some (c.toNat - 'A'.toNat + 10)
    else none
  match v with
  | some n => if n < radix then some n else none
  | none => none

/-- JavaScript `parseInt(s)` with no explicit radix: skip leading whitespace,
read an optional sign, detect a `0x`/`0X` hex prefix, then read the longest
run of digits of the radix.  `none` models `NaN` (no digits found). -/
def parseIntJS (s : String) : Option Int :=
  let cs0 := s.toList.dropWhile isJsSpace
  let signAndRest : Int × List Char :=
    match cs0 with
    | '-' :: r => (-1, r)
    | '+' :: r => (1, r)
    | r => (1, r)
  let radixAndRest : Nat × List Char :=
    match signAndRest.2 with
    | '0' :: 'x' :: r => (16, r)
    | '0' :: 'X' :: r => (16, r)
    | r => (10, r)
  let digits := radixAndRest.2.takeWhile (fun c => (digitValue radixAndRest.1 c).isSome)
  if digits.isEmpty then none
  else
    some (signAndRest.1 *
      digits.foldl (fun a c => a * (radixAndRest.1 : Int) + ((digitValue radixAndRest.1 c).getD 0 : Nat)) 0)

/-- The `search` command action of `cli.js`, restricted to its core logic:
`parseInt` the depth option, print an error and exit when the result is `NaN`
or `< 1` (this happens before any upstream call: in that case the result does
not depend on either oracle), otherwise run
`searchWithDepth(query, depth, !options.cache)`. -/
def searchAction (googleSearch fetchRelated : Oracle) (query depthOption : String)
    (cache : Bool) : Except String (SearchResult × List String) :=
  match parseIntJS depthOption with
  | none => Except.error "Error: Depth must be a positive number"
  | some depth =>
    if depth < 1 then Except.error "Error: Depth must be a positive number"
    else searchWithDepth googleSearch fetchRelated query depth (!cache)

/-- The leaf node emitted for a question that is not expanded:
`{ ...cleanQuestionData(q), depth, children: [] }` (no `error` key). -/
def leafNode (depth : Int) (q : RawQuestion) : QNode :=
  ⟨cleanQuestionData q, depth, [], none⟩

/-- The node and fetch trace that the loop body of `buildQuestionTree`
produces for a single question when `currentDepth < maxDepth`. -/
def processOne (fetchRelated : Oracle) (question : RawQuestion)
    (maxDepth currentDepth : Int) (noCache : Bool) : QNode × List String :=
  match question.lookup "next_page_token" with
  | none => (leafNode currentDepth question, [])
  | some tok =>
    if tok = "" then (leafNode currentDepth question, [])
    else
      match fetchRelated tok noCache with
      | Except.error msg =>
        (⟨cleanQuestionData question, currentDepth, [], some msg⟩, [tok])
      | Except.ok relatedData =>
        match relatedData.related_questions with
        | none => (leafNode currentDepth question, [tok])
        | some qs =>
          if 0 < qs.length then
            let sub := buildQuestionTree fetchRelated qs maxDepth (currentDepth + 1) noCache
            (⟨cleanQuestionData question, currentDepth, sub.1, none⟩, tok :: sub.2)
          else (leafNode currentDepth question, [tok])

/-- `AllNodes P n`: the property `P` holds at every node of the tree rooted
at `n`. -/
inductive AllNodes (P : QNode → Prop) : QNode → Prop where
  | node : ∀ (n : QNode), P n → (∀ c ∈ n.children, AllNodes P c) → AllNodes P n

/-- The per-node invariant maintained by `buildQuestionTree`: each child is one
level deeper than its parent, and the node's fields are the cleaned fields of
some raw question. -/
def GoodNode (p : QNode) : Prop :=
  (∀ c ∈ p.children, c.depth = p.depth + 1) ∧ ∃ q, p.fields = cleanQuestionData q

/-! ### Concrete sample data (used to witness the theorems) -/

/-- Sample raw question without a continuation token. -/
def qA : RawQuestion := [("question", "A"), ("serpapi_link", "SL")]

/-- Sample raw question with continuation token `T1`. -/
def qB : RawQuestion := [("question", "B"), ("next_page_token", "T1")]

/-- Sample raw question without any extra field. -/
def qC : RawQuestion := [("question", "C")]

/-- Sample raw question with continuation token `T2`. -/
def qD : RawQuestion := [("question", "D"), ("next_page_token", "T2")]

/-- Sample `fetchRelatedQuestions` oracle: `T1` yields `[qC, qD]`, every other
token rejects with message `boom`. -/
def fetchStub : Oracle := fun tok _ =>
  if tok = "T1" then Except.ok ⟨some [qC, qD]⟩
  else Except.error "boom"

/-- Sample `googleSearch` oracle: every query yields `[qA, qB]`. -/
def searchStub : Oracle := fun _ _ => Except.ok ⟨some [qA, qB]⟩

/-- Sample `googleSearch` oracle whose response has no `related_questions`. -/
def searchNoneStub : Oracle := fun _ _ => Except.ok ⟨none⟩

/-- Sample `googleSearch` oracle that rejects. -/
def searchFailStub : Oracle := fun _ _ => Except.error "auth failed"

/-- The tree built from `searchStub`/`fetchStub` at `maxDepth = 2`. -/
def resultStub : SearchResult :=
  ⟨"q", [⟨[("question", "A")], 1, [], none⟩,
         ⟨[("question", "B")], 1,
           [⟨[("question", "C")], 2, [], none⟩,
            ⟨[("question", "D")], 2, [], none⟩], none⟩]⟩

/-! ### Unfolding lemmas for `buildQuestionTree` -/

theorem buildQuestionTree_depthLimit (fetchRelated : Oracle) (qs : List RawQuestion)
    (maxDepth currentDepth : Int) (noCache : Bool) (h : currentDepth ≥ maxDepth) :
    buildQuestionTree fetchRelated qs maxDepth currentDepth noCache =
      (qs.map (leafNode currentDepth), []) := by
  rw [buildQuestionTree.eq_def, if_pos h]
  rfl

theorem buildQuestionTree_nil (fetchRelated : Oracle) (maxDepth currentDepth : Int)
    (noCache : Bool) (h : ¬ currentDepth ≥ maxDepth) :
    buildQuestionTree fetchRelated [] maxDepth currentDepth noCache = ([], []) := by
  rw [buildQuestionTree.eq_def, if_neg h]

theorem buildQuestionTree_cons (fetchRelated : Oracle) (q : RawQuestion)
    (rest : List RawQuestion) (maxDepth currentDepth : Int) (noCache : Bool)
    (h : ¬ currentDepth ≥ maxDepth) :
    buildQuestionTree fetchRelated (q :: rest) maxDepth currentDepth noCache =
      ((processOne fetchRelated q maxDepth currentDepth noCache).1 ::
        (buildQuestionTree fetchRelated rest maxDepth currentDepth noCache).1,
       (processOne fetchRelated q maxDepth currentDepth noCache).2 ++
        (buildQuestionTree fetchRelated rest maxDepth currentDepth noCache).2) := by
  rw [buildQuestionTree.eq_def, if_neg h]
  unfold processOne
  cases hq : q.lookup "next_page_token" with
  | none => simp [hq, leafNode]
  | some tok =>
    by_cases htok : tok = ""
    · simp [hq, htok, leafNode]
    · cases hf : fetchRelated tok noCache with
      | error msg => simp [hq, htok, hf]
      | ok relatedData =>
        cases hr : relatedData.related_questions with
        | none => simp [hq, htok, hf, hr, leafNode]
        | some qs =>
          by_cases hlen : 0 < qs.length
          · simp [hq, htok, hf, hr, hlen]
          · simp [hq, htok, hf, hr, hlen, leafNode]

/-! ### Shape of the node produced for a single question -/

theorem processOne_shape (fetchRelated : Oracle) (q : RawQuestion)
    (maxDepth currentDepth : Int) (noCache : Bool) :
    (processOne fetchRelated q maxDepth currentDepth noCache).1.fields = cleanQuestionData q ∧
    (processOne fetchRelated q maxDepth currentDepth noCache).1.depth = currentDepth ∧
    ((processOne fetchRelated q maxDepth currentDepth noCache).1.children = [] ∨
      ∃ qs, (processOne fetchRelated q maxDepth currentDepth noCache).1.children =
        (buildQuestionTree fetchRelated qs maxDepth (currentDepth + 1) noCache).1) := by
  unfold processOne
  cases hq : q.lookup "next_page_token" with
  | none => simp [hq, leafNode]
  | some tok =>
    by_cases htok : tok = ""
    · simp [hq, htok, leafNode]
    · cases hf : fetchRelated tok noCache with
      | error msg => simp [hq, htok, hf]
      | ok relatedData =>
        cases hr : relatedData.related_questions with
        | none => simp [hq, htok, hf, hr, leafNode]
        | some qs =>
          by_cases hlen : 0 < qs.length
          · simp only [hq, htok, hf, hr, hlen, if_true, if_neg htok]
            exact ⟨rfl, rfl, Or.inr ⟨qs, rfl⟩⟩
          · simp [hq, htok, hf, hr, hlen, leafNode]

/-! ### `buildQuestionTree` distributes over list append -/

theorem buildQuestionTree_append (fetchRelated : Oracle) (as bs : List RawQuestion)
    (maxDepth currentDepth : Int) (noCache : Bool) :
    buildQuestionTree fetchRelated (as ++ bs) maxDepth currentDepth noCache =
      ((buildQuestionTree fetchRelated as maxDepth currentDepth noCache).1 ++
        (buildQuestionTree fetchRelated bs maxDepth currentDepth noCache).1,
       (buildQuestionTree fetchRelated as maxDepth currentDepth noCache).2 ++
        (buildQuestionTree fetchRelated bs maxDepth currentDepth noCache).2) := by
  by_cases h : currentDepth ≥ maxDepth
  · simp [buildQuestionTree_depthLimit _ _ _ _ _ h]
  · induction as with
    | nil => simp [buildQuestionTree_nil _ _ _ _ h]
    | cons q rest ih =>
      rw [List.cons_append, buildQuestionTree_cons _ _ _ _ _ _ h,
        buildQuestionTree_cons _ _ _ _ _ _ h, ih]
      simp

/-! ### Lemmas about `AllNodes` -/

theorem AllNodes.mono {P Q : QNode → Prop} (hPQ : ∀ x, P x → Q x) :
    ∀ {n : QNode}, AllNodes P n → AllNodes Q n := by
  intro n h
  induction h with
  | node m hp hc ih => exact AllNodes.node m (hPQ m hp) ih

theorem AllNodes.leaf {P : QNode → Prop} {n : QNode} (hp : P n)
    (hc : n.children = []) : AllNodes P n :=
  AllNodes.node n hp (fun c hcm => absurd hcm (by simp [hc]))

/-! ### Lemmas about `cleanQuestionData` -/

theorem cleanQuestionData_keys (q : RawQuestion) :
    ∀ kv ∈ cleanQuestionData q, kv.1 ≠ "next_page_token" ∧ kv.1 ≠ "serpapi_link" := by
  intro kv hkv
  have h := List.of_mem_filter hkv
  simpa using h

theorem cleanQuestionData_lookup (q : RawQuestion) (k : String)
    (h1 : k ≠ "next_page_token") (h2 : k ≠ "serpapi_link") :
    (cleanQuestionData q).lookup k = q.lookup k := by
  induction q with
  | nil => rfl
  | cons kv rest ih =>
    by_cases hb : kv.1 = "next_page_token" ∨ kv.1 = "serpapi_link"
    · have hk : ¬ (k == kv.1) := by
        cases hb with
        | inl hb1 => simp [hb1, h1]
        | inr hb2 => simp [hb2, h2]
      have hdrop : cleanQuestionData (kv :: rest) = cleanQuestionData rest := by
        unfold cleanQuestionData
        rw [List.filter_cons]
        cases hb with
        | inl hb1 => simp [hb1]
        | inr hb2 => simp [hb2]
      rw [hdrop, ih]
      obtain ⟨k1, v1⟩ := kv
      simp only at hk
      simp [List.lookup, hk]
    · push_neg at hb
      have hkeep : cleanQuestionData (kv :: rest) = kv :: cleanQuestionData rest := by
        unfold cleanQuestionData
        rw [List.filter_cons]
        simp [hb.1, hb.2]
      rw [hkeep]
      obtain ⟨k1, v1⟩ := kv
      by_cases hk : k == k1
      · simp [List.lookup, hk]
      · simp [List.lookup, hk, ih]

/-! ### The depth/field invariant of `buildQuestionTree` -/

theorem invariant_depthLimit (fetchRelated : Oracle) (qs : List RawQuestion)
    (maxDepth currentDepth : Int) (noCache : Bool) (h : currentDepth ≥ maxDepth) :
    ∀ n ∈ (buildQuestionTree fetchRelated qs maxDepth currentDepth noCache).1,
      n.depth = currentDepth ∧ AllNodes GoodNode n := by
  intro n hn
  rw [buildQuestionTree_depthLimit _ _ _ _ _ h] at hn
  simp only [List.mem_map] at hn
  obtain ⟨q, _, rfl⟩ := hn
  exact ⟨rfl, AllNodes.leaf ⟨fun c hc => absurd hc (by simp [leafNode]), q, rfl⟩ rfl⟩

theorem buildQuestionTree_invariant (k : Nat) :
    ∀ (fetchRelated : Oracle) (qs : List RawQuestion) (maxDepth currentDepth : Int)
      (noCache : Bool), (maxDepth - currentDepth).toNat ≤ k →
      ∀ n ∈ (buildQuestionTree fetchRelated qs maxDepth currentDepth noCache).1,
        n.depth = currentDepth ∧ AllNodes GoodNode n := by
  induction k with
  | zero =>
    intro f qs m d nc hk
    exact invariant_depthLimit f qs m d nc (by omega)
  | succ k ih =>
    intro f qs m d nc hk
    by_cases h : d ≥ m
    · exact invariant_depthLimit f qs m d nc h
    · induction qs with
      | nil =>
        rw [buildQuestionTree_nil _ _ _ _ h]
        intro n hn
        simp at hn
      | cons q rest ihq =>
        rw [buildQuestionTree_cons _ _ _ _ _ _ h]
        intro n hn
        simp only [List.mem_cons] at hn
        cases hn with
        | inl hhead =>
          subst hhead
          obtain ⟨hfields, hdep, hch⟩ := processOne_shape f q m d nc
          refine ⟨hdep, ?_⟩
          cases hch with
          | inl hnil =>
            exact AllNodes.leaf ⟨fun c hc => absurd hc (by simp [hnil]), q, hfields⟩ hnil
          | inr hsub =>
            obtain ⟨qs2, hqs⟩ := hsub
            have hsubinv := ih f qs2 m (d + 1) nc (by omega)
            refine AllNodes.node _ ⟨?_, q, hfields⟩ ?_
            · intro c hc
              rw [hqs] at hc
              rw [hdep]
              exact (hsubinv c hc).1
            · intro c hc
              rw [hqs] at hc
              exact (hsubinv c hc).2
        | inr htail => exact ihq n htail

/-! ### Output siblings correspond one-to-one to the upstream questions -/

theorem buildQuestionTree_map_fields (fetchRelated : Oracle) (qs : List RawQuestion)
    (maxDepth currentDepth : Int) (noCache : Bool) :
    ((buildQuestionTree fetchRelated qs maxDepth currentDepth noCache).1).map QNode.fields =
      qs.map cleanQuestionData := by
  by_cases h : currentDepth ≥ maxDepth
  · rw [buildQuestionTree_depthLimit _ _ _ _ _ h]
    simp [leafNode]
  · induction qs with
    | nil => rw [buildQuestionTree_nil _ _ _ _ h]; rfl
    | cons q rest ih =>
      rw [buildQuestionTree_cons _ _ _ _ _ _ h]
      simp only [List.map_cons]
      rw [(processOne_shape fetchRelated q maxDepth currentDepth noCache).1, ih]

/-! ### Case analysis on successful `searchWithDepth` results -/

theorem searchWithDepth_ok_questions (googleSearch fetchRelated : Oracle)
    (query : String) (maxDepth : Int) (noCache : Bool)
    (out : SearchResult × List String)
    (hout : searchWithDepth googleSearch fetchRelated query maxDepth noCache =
      Except.ok out) :
    out.1.questions = [] ∨
      ∃ qs, out.1.questions = (buildQuestionTree fetchRelated qs maxDepth 1 noCache).1 := by
  unfold searchWithDepth at hout
  cases hgs : googleSearch query noCache with
  | error e => rw [hgs] at hout; simp at hout
  | ok initialResults =>
    rw [hgs] at hout
    dsimp only at hout
    cases hr : initialResults.related_questions with
    | none =>
      rw [hr] at hout
      simp only [Except.ok.injEq] at hout
      left
      rw [← hout]
    | some qs =>
      rw [hr] at hout
      dsimp only at hout
      by_cases hlen : qs.length = 0
      · rw [if_pos hlen] at hout
        simp only [Except.ok.injEq] at hout
        left
        rw [← hout]
      · rw [if_neg hlen] at hout
        simp only [Except.ok.injEq] at hout
        right
        exact ⟨qs, by rw [← hout]⟩

/-! ### `searchWithDepth` at depth limits ≤ 1 -/

theorem searchWithDepth_shallow (googleSearch fetchRelated : Oracle) (query : String)
    (maxDepth : Int) (noCache : Bool) (initialResults : RawResult)
    (hgs : googleSearch query noCache = Except.ok initialResults)
    (hm : maxDepth ≤ 1) :
    searchWithDepth googleSearch fetchRelated query maxDepth noCache =
      Except.ok
        (⟨query, (initialResults.related_questions.getD []).map (leafNode 1)⟩, []) := by
  unfold searchWithDepth
  rw [hgs]
  dsimp only
  cases hr : initialResults.related_questions with
  | none => simp
  | some qs =>
    dsimp only
    by_cases hlen : qs.length = 0
    · rw [if_pos hlen]
      have h0 : qs = [] := List.length_eq_zero.mp hlen
      subst h0
      simp
    · rw [if_neg hlen]
      rw [buildQuestionTree_depthLimit _ _ _ _ _ (by omega : (1 : Int) ≥ maxDepth)]
      simp

/-! ### Evaluation of the sample build -/

theorem fixture_eval :
    searchWithDepth searchStub fetchStub "q" 2 false = Except.ok (resultStub, ["T1"]) := by
  simp [searchWithDepth, searchStub, buildQuestionTree, fetchStub, processOne,
    qA, qB, qC, qD, cleanQuestionData, leafNode, resultStub, List.lookup]

/-! ### The claims -/

/-- **C1**: when `currentDepth ≥ maxDepth`, `buildQuestionTree` maps each input
question to a cleaned leaf node (`children = []`, `depth = currentDepth`, no
`error` field) and makes no `fetchRelatedQuestions` call (empty fetch trace);
in particular, a build with `maxDepth = 1` returns every root question as a
leaf and performs no expansion call even when continuation tokens are
present. -/
theorem claim1_depth_limit_no_expansion (googleSearch fetchRelated : Oracle)
    (qs : List RawQuestion) (maxDepth currentDepth : Int) (noCache : Bool)
    (query : String) (initialResults : RawResult)
    (hd : currentDepth ≥ maxDepth)
    (hgs : googleSearch query noCache = Except.ok initialResults) :
    buildQuestionTree fetchRelated qs maxDepth currentDepth noCache =
      (qs.map (leafNode currentDepth), []) ∧
    searchWithDepth googleSearch fetchRelated query 1 noCache =
      Except.ok
        (⟨query, (initialResults.related_questions.getD []).map (leafNode 1)⟩, []) :=
  ⟨buildQuestionTree_depthLimit _ _ _ _ _ hd,
   searchWithDepth_shallow _ _ _ _ _ _ hgs (le_refl 1)⟩

/-- Witness for C1 on concrete data. -/
theorem claim1_witness :
    ((3 : Int) ≥ 2) ∧ (searchStub "q" false = Except.ok ⟨some [qA, qB]⟩) ∧
    (buildQuestionTree fetchStub [qA, qB] 2 3 false = ([qA, qB].map (leafNode 3), []) ∧
     searchWithDepth searchStub fetchStub "q" 1 false =
       Except.ok
         (⟨"q", ((⟨some [qA, qB]⟩ : RawResult).related_questions.getD []).map (leafNode 1)⟩,
          [])) :=
  ⟨by decide, rfl,
   claim1_depth_limit_no_expansion searchStub fetchStub [qA, qB] 2 3 false "q"
     ⟨some [qA, qB]⟩ (by decide) rfl⟩

/-- **C2**: in every tree returned by the builder, each node's `depth` field is
exactly one greater than its parent's, and every root-level node has
`depth = 1`. -/
theorem claim2_depth_structure (googleSearch fetchRelated : Oracle) (query : String)
    (maxDepth : Int) (noCache : Bool) (out : SearchResult × List String)
    (hout : searchWithDepth googleSearch fetchRelated query maxDepth noCache =
      Except.ok out) :
    ∀ n ∈ out.1.questions, n.depth = 1 ∧
      AllNodes (fun p => ∀ c ∈ p.children, c.depth = p.depth + 1) n := by
  intro n hn
  cases searchWithDepth_ok_questions _ _ _ _ _ _ hout with
  | inl hempty => rw [hempty] at hn; simp at hn
  | inr hsome =>
    obtain ⟨qs, hqs⟩ := hsome
    rw [hqs] at hn
    have hinv := buildQuestionTree_invariant (maxDepth - 1).toNat fetchRelated qs maxDepth 1
      noCache (le_refl _) n hn
    exact ⟨hinv.1, AllNodes.mono (fun x hx => hx.1) hinv.2⟩

/-- Witness for C2 on the sample build. -/
theorem claim2_witness :
    (searchWithDepth searchStub fetchStub "q" 2 false = Except.ok (resultStub, ["T1"])) ∧
    ∀ n ∈ resultStub.questions, n.depth = 1 ∧
      AllNodes (fun p => ∀ c ∈ p.children, c.depth = p.depth + 1) n :=
  ⟨fixture_eval,
   claim2_depth_structure searchStub fetchStub "q" 2 false (resultStub, ["T1"]) fixture_eval⟩

/-- **C3**: a question lacking a continuation token (absent field, or the falsy
empty string) is emitted, at its position, as a leaf node with `children = []`
and no `error` field, regardless of `currentDepth` and `maxDepth`, and no
`fetchRelatedQuestions` call is made for it: the fetch trace is exactly that
of the surrounding questions. -/
theorem claim3_no_token_leaf (fetchRelated : Oracle) (qs1 qs2 : List RawQuestion)
    (q : RawQuestion) (maxDepth currentDepth : Int) (noCache : Bool)
    (hq : q.lookup "next_page_token" = none ∨ q.lookup "next_page_token" = some "") :
    buildQuestionTree fetchRelated (qs1 ++ q :: qs2) maxDepth currentDepth noCache =
      ((buildQuestionTree fetchRelated qs1 maxDepth currentDepth noCache).1 ++
        leafNode currentDepth q ::
        (buildQuestionTree fetchRelated qs2 maxDepth currentDepth noCache).1,
       (buildQuestionTree fetchRelated qs1 maxDepth currentDepth noCache).2 ++
        (buildQuestionTree fetchRelated qs2 maxDepth currentDepth noCache).2) := by
  rw [buildQuestionTree_append]
  by_cases h : currentDepth ≥ maxDepth
  · have hdl : ∀ l : List RawQuestion,
        buildQuestionTree fetchRelated l maxDepth currentDepth noCache =
          (l.map (leafNode currentDepth), []) :=
      fun l => buildQuestionTree_depthLimit _ _ _ _ _ h
    rw [hdl qs1, hdl (q :: qs2), hdl qs2]
    simp
  · rw [buildQuestionTree_cons _ _ _ _ _ _ h]
    have hp : processOne fetchRelated q maxDepth currentDepth noCache =
        (leafNode currentDepth q, []) := by
      unfold processOne
      cases hq with
      | inl h1 => rw [h1]
      | inr h2 => rw [h2]; simp
    rw [hp]
    simp

/-- Witness for C3: `qA` has no continuation token. -/
theorem claim3_witness :
    ((qA : RawQuestion).lookup "next_page_token" = none ∨
      (qA : RawQuestion).lookup "next_page_token" = some "") ∧
    buildQuestionTree fetchStub ([qB] ++ qA :: [qD]) 3 1 false =
      ((buildQuestionTree fetchStub [qB] 3 1 false).1 ++
        leafNode 1 qA :: (buildQuestionTree fetchStub [qD] 3 1 false).1,
       (buildQuestionTree fetchStub [qB] 3 1 false).2 ++
        (buildQuestionTree fetchStub [qD] 3 1 false).2) :=
  ⟨Or.inl rfl, claim3_no_token_leaf fetchStub [qB] [qD] qA 3 1 false (Or.inl rfl)⟩

/-- **C4**: when the expansion call for a question fails, the node is still
emitted in place with `children = []` and `error` set to the failure's
message, and the siblings before and after it are processed exactly as they
would be on their own; the failure never aborts the enclosing traversal. -/
theorem claim4_fetch_failure_isolated (fetchRelated : Oracle)
    (qs1 qs2 : List RawQuestion) (q : RawQuestion) (tok msg : String)
    (maxDepth currentDepth : Int) (noCache : Bool)
    (hdepth : ¬ currentDepth ≥ maxDepth)
    (htok : q.lookup "next_page_token" = some tok) (hne : tok ≠ "")
    (hfail : fetchRelated tok noCache = Except.error msg) :
    buildQuestionTree fetchRelated (qs1 ++ q :: qs2) maxDepth currentDepth noCache =
      ((buildQuestionTree fetchRelated qs1 maxDepth currentDepth noCache).1 ++
        ⟨cleanQuestionData q, currentDepth, [], some msg⟩ ::
        (buildQuestionTree fetchRelated qs2 maxDepth currentDepth noCache).1,
       (buildQuestionTree fetchRelated qs1 maxDepth currentDepth noCache).2 ++
        tok :: (buildQuestionTree fetchRelated qs2 maxDepth currentDepth noCache).2) := by
  rw [buildQuestionTree_append, buildQuestionTree_cons _ _ _ _ _ _ hdepth]
  have hp : processOne fetchRelated q maxDepth currentDepth noCache =
      (⟨cleanQuestionData q, currentDepth, [], some msg⟩, [tok]) := by
    unfold processOne
    rw [htok]
    simp [hne, hfail]
  rw [hp]
  simp

/-- Witness for C4: fetching `T2` (the token of `qD`) fails with `boom`. -/
theorem claim4_witness :
    (¬ (1 : Int) ≥ 2) ∧
    ((qD : RawQuestion).lookup "next_page_token" = some "T2") ∧
    ("T2" ≠ "") ∧ (fetchStub "T2" false = Except.error "boom") ∧
    buildQuestionTree fetchStub ([qC] ++ qD :: [qB]) 2 1 false =
      ((buildQuestionTree fetchStub [qC] 2 1 false).1 ++
        ⟨cleanQuestionData qD, 1, [], some "boom"⟩ ::
        (buildQuestionTree fetchStub [qB] 2 1 false).1,
       (buildQuestionTree fetchStub [qC] 2 1 false).2 ++
        "T2" :: (buildQuestionTree fetchStub [qB] 2 1 false).2) :=
  ⟨by decide, rfl, by decide, rfl,
   claim4_fetch_failure_isolated fetchStub [qC] [qB] qD "T2" "boom" 2 1 false
     (by decide) rfl (by decide) rfl⟩

/-- **C5**: every node of every tree returned by the builder contains neither
the `next_page_token` field nor the `serpapi_link` field, and
`cleanQuestionData` retains every other field of the raw question unchanged
(the lookup of every non-stripped key is preserved). -/
theorem claim5_cleaning (googleSearch fetchRelated : Oracle) (query : String)
    (maxDepth : Int) (noCache : Bool) (out : SearchResult × List String)
    (k : String)
    (hout : searchWithDepth googleSearch fetchRelated query maxDepth noCache =
      Except.ok out)
    (hk1 : k ≠ "next_page_token") (hk2 : k ≠ "serpapi_link") :
    (∀ n ∈ out.1.questions,
      AllNodes (fun p => ∀ kv ∈ p.fields,
        kv.1 ≠ "next_page_token" ∧ kv.1 ≠ "serpapi_link") n) ∧
    ∀ q : RawQuestion, (cleanQuestionData q).lookup k = q.lookup k := by
  constructor
  · intro n hn
    cases searchWithDepth_ok_questions _ _ _ _ _ _ hout with
    | inl hempty => rw [hempty] at hn; simp at hn
    | inr hsome =>
      obtain ⟨qs, hqs⟩ := hsome
      rw [hqs] at hn
      have hinv := buildQuestionTree_invariant (maxDepth - 1).toNat fetchRelated qs maxDepth 1
        noCache (le_refl _) n hn
      refine AllNodes.mono ?_ hinv.2
      intro x hx
      obtain ⟨q, hq⟩ := hx.2
      rw [hq]
      exact cleanQuestionData_keys q
  · intro q
    exact cleanQuestionData_lookup q k hk1 hk2

/-- Witness for C5 on the sample build, with the pass-through key
`question`. -/
theorem claim5_witness :
    (searchWithDepth searchStub fetchStub "q" 2 false = Except.ok (resultStub, ["T1"])) ∧
    ("question" ≠ "next_page_token") ∧ ("question" ≠ "serpapi_link") ∧
    (∀ n ∈ resultStub.questions,
      AllNodes (fun p => ∀ kv ∈ p.fields,
        kv.1 ≠ "next_page_token" ∧ kv.1 ≠ "serpapi_link") n) ∧
    ∀ q : RawQuestion, (cleanQuestionData q).lookup "question" = q.lookup "question" :=
  ⟨fixture_eval, by decide, by decide,
   claim5_cleaning searchStub fetchStub "q" 2 false (resultStub, ["T1"]) "question"
     fixture_eval (by decide) (by decide)⟩

/-- **C6**: if the seed response has no follow-up questions (the
`related_questions` field is absent or an empty list), the build returns
exactly `{ query, questions: [] }` with an empty fetch trace: no further
upstream call is made. -/
theorem claim6_empty_seed (googleSearch fetchRelated : Oracle) (query : String)
    (maxDepth : Int) (noCache : Bool) (initialResults : RawResult)
    (hgs : googleSearch query noCache = Except.ok initialResults)
    (hempty : initialResults.related_questions = none ∨
      initialResults.related_questions = some []) :
    searchWithDepth googleSearch fetchRelated query maxDepth noCache =
      Except.ok (⟨query, []⟩, []) := by
  unfold searchWithDepth
  rw [hgs]
  dsimp only
  cases hempty with
  | inl h => rw [h]
  | inr h => rw [h]; simp

/-- Witness for C6: a seed response without `related_questions`. -/
theorem claim6_witness :
    (searchNoneStub "q" false = Except.ok ⟨none⟩) ∧
    ((⟨none⟩ : RawResult).related_questions = none ∨
      (⟨none⟩ : RawResult).related_questions = some []) ∧
    searchWithDepth searchNoneStub fetchStub "q" 5 false = Except.ok (⟨"q", []⟩, []) :=
  ⟨rfl, Or.inl rfl,
   claim6_empty_seed searchNoneStub fetchStub "q" 5 false ⟨none⟩ rfl (Or.inl rfl)⟩

/-- **C7**: at every level, the output sibling list corresponds one-to-one and
in order to the question list received for that level: mapping the retained
fields over the output equals mapping `cleanQuestionData` over the input, and
the lengths agree — no node is dropped, duplicated or reordered, including
when expansions fail.  (Each level of the tree is produced by one such call:
root siblings by the call at depth 1, and the children of any expanded node
by the recursive call on the questions fetched for it.) -/
theorem claim7_sibling_order (fetchRelated : Oracle) (qs : List RawQuestion)
    (maxDepth currentDepth : Int) (noCache : Bool) :
    ((buildQuestionTree fetchRelated qs maxDepth currentDepth noCache).1).map
        QNode.fields = qs.map cleanQuestionData ∧
    ((buildQuestionTree fetchRelated qs maxDepth currentDepth noCache).1).length =
      qs.length := by
  have h := buildQuestionTree_map_fields fetchRelated qs maxDepth currentDepth noCache
  refine ⟨h, ?_⟩
  have hlen := congrArg List.length h
  simpa using hlen

/-- **C8**: a depth option that does not parse to a number, or parses to a
value `< 1`, is rejected by the CLI `search` action before any upstream call:
the action returns the depth error for every pair of oracles, so neither
oracle is consulted. -/
theorem claim8_invalid_depth (googleSearch fetchRelated : Oracle)
    (query depthOption : String) (cache : Bool)
    (hbad : parseIntJS depthOption = none ∨
      ∃ d, parseIntJS depthOption = some d ∧ d < 1) :
    searchAction googleSearch fetchRelated query depthOption cache =
      Except.error "Error: Depth must be a positive number" := by
  unfold searchAction
  cases hbad with
  | inl h => rw [h]
  | inr h =>
    obtain ⟨d, hd, hlt⟩ := h
    rw [hd]
    simp [hlt]

/-- Witness for C8: the depth option `"0"` parses to `0 < 1` and is
rejected. -/
theorem claim8_witness :
    (parseIntJS "0" = none ∨ ∃ d, parseIntJS "0" = some d ∧ d < 1) ∧
    searchAction searchStub fetchStub "q" "0" true =
      Except.error "Error: Depth must be a positive number" :=
  ⟨Or.inr ⟨0, rfl, by decide⟩,
   claim8_invalid_depth searchStub fetchStub "q" "0" true (Or.inr ⟨0, rfl, by decide⟩)⟩

/-- **C9**: if the seed search call rejects, `searchWithDepth` fails as a
whole with that error propagated, producing no partial tree. -/
theorem claim9_seed_failure (googleSearch fetchRelated : Oracle) (query : String)
    (maxDepth : Int) (noCache : Bool) (e : String)
    (hgs : googleSearch query noCache = Except.error e) :
    searchWithDepth googleSearch fetchRelated query maxDepth noCache =
      Except.error e := by
  unfold searchWithDepth
  rw [hgs]

/-- Witness for C9: a rejecting seed search. -/
theorem claim9_witness :
    (searchFailStub "q" false = Except.error "auth failed") ∧
    searchWithDepth searchFailStub fetchStub "q" 2 false = Except.error "auth failed" :=
  ⟨rfl, claim9_seed_failure searchFailStub fetchStub "q" 2 false "auth failed" rfl⟩

/-- **C10**: for every `maxDepth ≤ 1`, zero and negative values included, the
core `searchWithDepth` does not reject the input: it still issues the seed
search and returns every root question as a depth-1 leaf with
`children = []` and an empty fetch trace — exactly the `maxDepth = 1`
result. -/
theorem claim10_nonpositive_depth (googleSearch fetchRelated : Oracle)
    (query : String) (maxDepth : Int) (noCache : Bool) (initialResults : RawResult)
    (hm : maxDepth ≤ 1)
    (hgs : googleSearch query noCache = Except.ok initialResults) :
    searchWithDepth googleSearch fetchRelated query maxDepth noCache =
      searchWithDepth googleSearch fetchRelated query 1 noCache ∧
    searchWithDepth googleSearch fetchRelated query maxDepth noCache =
      Except.ok
        (⟨query, (initialResults.related_questions.getD []).map (leafNode 1)⟩, []) := by
  have h1 := searchWithDepth_shallow googleSearch fetchRelated query maxDepth noCache
    initialResults hgs hm
  have h2 := searchWithDepth_shallow googleSearch fetchRelated query 1 noCache
    initialResults hgs (le_refl 1)
  exact ⟨h1.trans h2.symm, h1⟩

/-- Witness for C10 at `maxDepth = -2`. -/
theorem claim10_witness :
    ((-2 : Int) ≤ 1) ∧ (searchStub "q" false = Except.ok ⟨some [qA, qB]⟩) ∧
    (searchWithDepth searchStub fetchStub "q" (-2) false =
      searchWithDepth searchStub fetchStub "q" 1 false ∧
     searchWithDepth searchStub fetchStub "q" (-2) false =
      Except.ok
        (⟨"q", ((⟨some [qA, qB]⟩ : RawResult).related_questions.getD []).map (leafNode 1)⟩,
         [])) :=
  ⟨by decide, rfl,
   claim10_nonpositive_depth searchStub fetchStub "q" (-2) false ⟨some [qA, qB]⟩
     (by decide) rfl⟩

end PAA
